import Mathlib

/-!
Shallow embedding of the EEPROM hardware-integration module
(static/js/eeprom.js) of the Magic-V17.1 repository, together with
proofs about its stream pipeline, connection lifecycle, scan retry
logic, prompt detection and diagnostic analyzer.

Strings are modelled as List Char; the JavaScript functions are
translated operation by operation.
-/

namespace Eeprom

/-! ### Definitions: characters, trimming, terminator split -/

/-- JavaScript whitespace as used by String.prototype.trim and the
regex whitespace class, restricted to the ASCII range (space, tab,
line feed, vertical tab, form feed, carriage return). -/
def isJsWS (c : Char) : Bool :=
  c == ' ' || c == '\t' || c == '\n' || c == '\r' || c.toNat == 11 || c.toNat == 12

/-- Model of JavaScript String.prototype.trim: drop whitespace from
both ends. -/
def jsTrim (l : List Char) : List Char :=
  ((l.dropWhile isJsWS).reverse.dropWhile isJsWS).reverse

/-- Prepend a character to the first piece of a split result (helper
for splitTerm). -/
def consHead (c : Char) : List (List Char) → List (List Char)
  | [] => [[c]]
  | p :: ps => (c :: p) :: ps

/-- Model of JavaScript s.split with the regex carriage-return-optional
line feed, as used in readLoop: scan left to right, each line feed ends
a piece, an immediately preceding carriage return is consumed with it. -/
def splitTerm : List Char → List (List Char)
  | [] => [[]]
  | [c] => if c = '\n' then [[], []] else [[c]]
  | c :: d :: rest =>
    if c = '\n' then [] :: splitTerm (d :: rest)
    else if c = '\r' ∧ d = '\n' then [] :: splitTerm rest
    else consHead c (splitTerm (d :: rest))

/-! ### Definitions: the stream pipeline (readLoop of eeprom.js) -/

/-- The lines readLoop logs for one split result: every piece except
the last, trimmed, skipping pieces that trim to the empty string. -/
def emitOf (pieces : List (List Char)) : List (List Char) :=
  (pieces.dropLast.map jsTrim).filter (fun l => !l.isEmpty)

/-- One iteration of the readLoop body on a received chunk: append the
chunk to the line buffer, split on terminators, log all complete
lines, keep the last piece as the new line buffer. -/
def stepEmit (buf chunk : List Char) : List (List Char) × List Char :=
  let lines := splitTerm (buf ++ chunk)
  (emitOf lines, lines.getLastD [])

/-- The readLoop of eeprom.js, run over a finite sequence of incoming
chunks starting from line buffer buf: returns all logged lines in
order and the final line buffer. -/
def readLoop (buf : List Char) : List (List Char) → List (List Char) × List Char
  | [] => ([], buf)
  | chunk :: rest =>
    let first := stepEmit buf chunk
    let next := readLoop first.2 rest
    (first.1 ++ next.1, next.2)

/-- All complete lines the pipeline emits for a chunk stream, starting
from the empty line buffer. -/
def pipelineEmitted (chunks : List (List Char)) : List (List Char) :=
  (readLoop [] chunks).1

/-- The residual fragment held in the line buffer after a chunk
stream, starting from the empty line buffer. -/
def pipelineResidual (chunks : List (List Char)) : List Char :=
  (readLoop [] chunks).2

/-- A string with every consumed line terminator removed: the
concatenation of the pieces of the terminator split. -/
def stripTerminators (s : List Char) : List Char :=
  (splitTerm s).flatten

/-- A string with every consumed terminator removed and every
completed piece (all but the last) trimmed. -/
def stripTermsAndTrim (s : List Char) : List Char :=
  ((splitTerm s).dropLast.map jsTrim).flatten ++ (splitTerm s).getLastD []

/-! ### Definitions: connection state, disconnect and connect
(module-level mutable variables and functions of eeprom.js) -/

/-- The module-level mutable references of eeprom.js that the
connection lifecycle manipulates, abstracted to presence flags
(a field is true when the corresponding variable is non-null, and
isConnecting is the busy flag itself). -/
structure SerialState where
  port : Bool
  reader : Bool
  writer : Bool
  readableStreamClosed : Bool
  writableStreamClosed : Bool
  textDecoder : Bool
  textEncoder : Bool
  isConnecting : Bool
deriving DecidableEq

/-- Which awaited teardown primitives reject, for one run of
disconnectPort (the two piped-stream awaits are guarded with a
rejection handler in the source and therefore cannot throw). -/
structure DisconnectFaults where
  cancelFails : Bool
  writerCloseFails : Bool
  portCloseFails : Bool
deriving DecidableEq

/-- Observable actions of one disconnectPort run, in order. -/
inductive TeardownAction where
  | cancelReader
  | awaitReadable
  | closeWriter
  | awaitWritable
  | closePort
  | logDisconnected
  | logError
deriving DecidableEq

/-- Sequencing inside the single try block of disconnectPort: a step
result carries the actions so far, the state so far, and whether
control is still inside the try block (false after a throw). -/
def tdStep (r : List TeardownAction × SerialState × Bool)
    (k : SerialState → List TeardownAction × SerialState × Bool) :
    List TeardownAction × SerialState × Bool :=
  match r with
  | (t, s, false) => (t, s, false)
  | (t, s, true) =>
    let next := k s
    (t ++ next.1, next.2.1, next.2.2)

/-- Step 1 of the teardown: if a reader exists, await reader.cancel();
on rejection the try block is aborted and reader keeps its value. -/
def cancelReaderStep (f : DisconnectFaults) (s : SerialState) :
    List TeardownAction × SerialState × Bool :=
  if s.reader then
    if f.cancelFails then ([TeardownAction.cancelReader], s, false)
    else ([TeardownAction.cancelReader], { s with reader := false }, true)
  else ([], s, true)

/-- Await readableStreamClosed with a swallowed rejection, then clear
it. -/
def awaitReadableStep (s : SerialState) :
    List TeardownAction × SerialState × Bool :=
  if s.readableStreamClosed then
    ([TeardownAction.awaitReadable], { s with readableStreamClosed := false }, true)
  else ([], s, true)

/-- Step 2: if a writer exists, await writer.close(); on rejection the
try block is aborted. -/
def closeWriterStep (f : DisconnectFaults) (s : SerialState) :
    List TeardownAction × SerialState × Bool :=
  if s.writer then
    if f.writerCloseFails then ([TeardownAction.closeWriter], s, false)
    else ([TeardownAction.closeWriter], { s with writer := false }, true)
  else ([], s, true)

/-- Await writableStreamClosed with a swallowed rejection, then clear
it. -/
def awaitWritableStep (s : SerialState) :
    List TeardownAction × SerialState × Bool :=
  if s.writableStreamClosed then
    ([TeardownAction.awaitWritable], { s with writableStreamClosed := false }, true)
  else ([], s, true)

/-- Step 3: clear the text codec stream references. -/
def clearCodecsStep (s : SerialState) :
    List TeardownAction × SerialState × Bool :=
  ([], { s with textDecoder := false, textEncoder := false }, true)

/-- Step 4: await port.close(); on success log the disconnect
message. -/
def closePortStep (f : DisconnectFaults) (s : SerialState) :
    List TeardownAction × SerialState × Bool :=
  if f.portCloseFails then ([TeardownAction.closePort], s, false)
  else ([TeardownAction.closePort, TeardownAction.logDisconnected], s, true)

/-- disconnectPort of eeprom.js: when a port exists, run the whole
teardown sequence inside one try block (a throw jumps to the catch,
which logs the error); afterwards always clear the port reference and
the busy flag. Returns the performed actions and the final state. -/
def disconnectPort (s : SerialState) (f : DisconnectFaults) :
    List TeardownAction × SerialState :=
  if s.port then
    let r := tdStep (tdStep (tdStep (tdStep (tdStep
      (cancelReaderStep f s) awaitReadableStep) (closeWriterStep f))
      awaitWritableStep) clearCodecsStep) (closePortStep f)
    let trace := if r.2.2 then r.1 else r.1 ++ [TeardownAction.logError]
    (trace, { r.2.1 with port := false, isConnecting := false })
  else ([], s)

/-- The environment of one connectToPort run: which branch the port
selection takes and which awaited operations fail. -/
structure ConnectEnv where
  noPortSelected : Bool
  requestPortFails : Bool
  portAlreadyReadable : Bool
  openFails : Bool
  handshakeFails : Bool
  disconnectFaults : DisconnectFaults
deriving DecidableEq

/-- How one connectToPort run ends. -/
inductive ConnectResult where
  | busy
  | cancelled
  | connected
  | failed
deriving DecidableEq

/-- Observable transport actions of one connectToPort run. -/
inductive ConnectAction where
  | disconnectFirst
  | requestPort
  | closeStale
  | openPort
  | setupStreams
  | handshake
deriving DecidableEq

/-- The tail of connectToPort after a port has been selected: close a
stale open port, open with the fixed settings, set up the streams,
clear the busy flag, then run the CLI handshake; any throw is caught
by the catch block, which clears the port reference and the busy
flag. -/
def openSelectedPort (e : ConnectEnv) (t0 : List ConnectAction) (s : SerialState) :
    ConnectResult × List ConnectAction × SerialState :=
  let t1 := if e.portAlreadyReadable then t0 ++ [ConnectAction.closeStale] else t0
  if e.openFails then
    (ConnectResult.failed, t1 ++ [ConnectAction.openPort],
      { s with port := false, isConnecting := false })
  else
    let s1 := { s with port := true, reader := true, writer := true,
                       readableStreamClosed := true, writableStreamClosed := true,
                       textDecoder := true, textEncoder := true }
    let s2 := { s1 with isConnecting := false }
    if e.handshakeFails then
      (ConnectResult.failed,
        t1 ++ [ConnectAction.openPort, ConnectAction.setupStreams, ConnectAction.handshake],
        { s2 with port := false, isConnecting := false })
    else
      (ConnectResult.connected,
        t1 ++ [ConnectAction.openPort, ConnectAction.setupStreams, ConnectAction.handshake],
        s2)

/-- connectToPort of eeprom.js: return immediately when the busy flag
is set; otherwise disconnect any existing port, set the busy flag,
resolve a port (via the request dialog when none is selected, clearing
the busy flag and returning if that fails), and open it. -/
def connectToPort (s : SerialState) (e : ConnectEnv) :
    ConnectResult × List ConnectAction × SerialState :=
  if s.isConnecting then (ConnectResult.busy, [], s)
  else
    let d := if s.port
      then (([ConnectAction.disconnectFirst],
              (disconnectPort s e.disconnectFaults).2) :
              List ConnectAction × SerialState)
      else ([], s)
    let s1 := { d.2 with isConnecting := true }
    if e.noPortSelected then
      if e.requestPortFails then
        (ConnectResult.cancelled, d.1, { s1 with isConnecting := false })
      else openSelectedPort e (d.1 ++ [ConnectAction.requestPort]) s1
    else openSelectedPort e d.1 s1

/-- sendCommand of eeprom.js: refuse (returning false, writing
nothing) when no port or no writer is tracked or a connect is in
flight; otherwise attempt the write, which logs the command and
returns true on success and returns false on a write error. -/
def sendCommand (s : SerialState) (writeFails : Bool) : Bool × Bool :=
  if !s.port || !s.writer || s.isConnecting then (false, false)
  else if writeFails then (false, true)
  else (true, true)

/-! ### Definitions: transcript pattern matching (regexes of
eeprom.js, translated to deterministic scanners; the character classes
involved are disjoint, so the regex backtracking is immaterial) -/

/-- Hexadecimal digit class of the hex-row regex. -/
def isHexDigit (c : Char) : Bool :=
  c.isDigit || ('A' ≤ c && c ≤ 'F') || ('a' ≤ c && c ≤ 'f')

/-- One-or-more whitespace: requires a leading whitespace character
and consumes the maximal whitespace run, returning the rest. -/
def eatWS1 : List Char → Option (List Char)
  | [] => none
  | c :: rest => if isJsWS c then some (rest.dropWhile isJsWS) else none

/-- The number of consecutive repetitions of (two hex digits followed
by one-or-more whitespace) at the head of the string, with structural
fuel (each repetition consumes at least three characters, so fuel
equal to the string length never runs out). -/
def countHexGroupsF : Nat → List Char → Nat
  | _, [] => 0
  | _, [_] => 0
  | 0, _ => 0
  | fuel + 1, a :: b :: rest =>
    if isHexDigit a && isHexDigit b then
      match eatWS1 rest with
      | some r => countHexGroupsF fuel r + 1
      | none => 0
    else 0

/-- The number of consecutive repetitions of (two hex digits followed
by one-or-more whitespace) at the head of the string. -/
def countHexGroups (l : List Char) : Nat :=
  countHexGroupsF l.length l

/-- The anchored hex-row regex of eeprom.js: optional leading
whitespace, an address of two to four hex digits, a colon, whitespace,
then at least eight groups of two hex digits each followed by
whitespace. -/
def hexRowMatch (l : List Char) : Bool :=
  let l1 := l.dropWhile isJsWS
  let run := l1.takeWhile isHexDigit
  let rest := l1.dropWhile isHexDigit
  if 2 ≤ run.length ∧ run.length ≤ 4 then
    match rest with
    | ':' :: r2 =>
      match eatWS1 r2 with
      | some r3 => decide (8 ≤ countHexGroups r3)
      | none => false
    | _ => false
  else false

/-- The select-command echo regex at one start position: a prompt
character, optional whitespace, the select keyword, whitespace, a bus
letter, whitespace, a digit. -/
def muxCmdAt (l : List Char) : Bool :=
  match l with
  | '>' :: rest =>
    match rest.dropWhile isJsWS with
    | 's' :: 'm' :: r2 =>
      match eatWS1 r2 with
      | some r3 =>
        match r3 with
        | 'a' :: r4 | 'b' :: r4 =>
          match eatWS1 r4 with
          | some r5 =>
            match r5 with
            | e :: _ => e.isDigit
            | [] => false
          | none => false
        | _ => false
      | none => false
    | _ => false
  | _ => false

/-- The select-acknowledgement regex at one start position: the
literal text MUX, a space, a bus letter, a comma, a space, the literal
text Channel, a space, a digit. -/
def muxSuccessAt (l : List Char) : Bool :=
  match l with
  | 'M' :: 'U' :: 'X' :: ' ' :: c :: ',' :: ' ' ::
      'C' :: 'h' :: 'a' :: 'n' :: 'n' :: 'e' :: 'l' :: ' ' :: d :: _ =>
    (c == 'A' || c == 'B') && d.isDigit
  | _ => false

/-- The alternative select-acknowledgement regex at one start
position: the word Selected, then the same tail. -/
def selectedMuxAt (l : List Char) : Bool :=
  match l with
  | 'S' :: 'e' :: 'l' :: 'e' :: 'c' :: 't' :: 'e' :: 'd' :: ' ' :: rest => muxSuccessAt rest
  | _ => false

/-- The dump-command regex at one start position: a prompt character,
optional whitespace, the dump keyword, whitespace, then one of the
literal lengths 16, 64, 128. -/
def hdCmdAt (l : List Char) : Bool :=
  match l with
  | '>' :: rest =>
    match rest.dropWhile isJsWS with
    | 'h' :: 'd' :: r2 =>
      match eatWS1 r2 with
      | some r3 =>
        match r3 with
        | '1' :: '6' :: _ => true
        | '6' :: '4' :: _ => true
        | '1' :: '2' :: '8' :: _ => true
        | _ => false
      | none => false
    | _ => false
  | _ => false

/-- Unanchored regex search: try the pattern at every start
position. -/
def searchMatch (p : List Char → Bool) : List Char → Bool
  | [] => p []
  | c :: rest => p (c :: rest) || searchMatch p rest

/-- A line counted by the analyzer as an issued select command. -/
def matchMuxCmd (l : List Char) : Bool := searchMatch muxCmdAt l

/-- A line counted by the analyzer as an acknowledged select (either
acknowledgement pattern). -/
def matchMuxSuccess (l : List Char) : Bool :=
  searchMatch muxSuccessAt l || searchMatch selectedMuxAt l

/-- A line counted by the analyzer as an issued dump command. -/
def matchHdCmd (l : List Char) : Bool := searchMatch hdCmdAt l

/-- A line counted as a hex data row (the unanchored match of an
anchored regex is the anchored match). -/
def matchHexRow (l : List Char) : Bool := hexRowMatch l

/-! ### Definitions: scan retry (readBoardConfiguration) -/

/-- The transcript filter count used by readBoardConfiguration: how
many transcript lines match the hex-row pattern. -/
def countHexRows (log : List (List Char)) : Nat :=
  (log.filter matchHexRow).length

/-- The echo line logged by sendCommand for the dump command of the
scan sweep. -/
def hdEchoLine : List Char := "> hd 0 16".data

/-- The log line announcing a retry. -/
def retryNotice : List Char := "First attempt failed, retrying...".data

/-- The dump-and-retry step of readBoardConfiguration for one channel:
count hex rows in the whole transcript, issue the dump (echo plus
device response lines), count again, and when the count did not grow
issue exactly one further dump. Returns the final transcript and the
number of retries issued. -/
def dumpWithRetry (log resp1 resp2 : List (List Char)) :
    List (List Char) × Nat :=
  let hexLinesBefore := countHexRows log
  let log1 := (log ++ [hdEchoLine]) ++ resp1
  let hexLinesAfter := countHexRows log1
  if hexLinesAfter = hexLinesBefore then
    ((log1 ++ [retryNotice, hdEchoLine]) ++ resp2, 1)
  else (log1, 0)

/-! ### Definitions: diagnostic analyzer (analyzeScanFailure) -/

/-- The counters accumulated by the analysis loop of
analyzeScanFailure, plus its tracking flag for whether the dump
command currently open has produced data. -/
structure ScanStats where
  totalMux : Nat
  succMux : Nat
  totalHd : Nat
  succHd : Nat
  hexFound : Nat
  failLines : Nat
  hasData : Bool
deriving DecidableEq

/-- The initial counters. -/
def initStats : ScanStats :=
  { totalMux := 0, succMux := 0, totalHd := 0, succHd := 0,
    hexFound := 0, failLines := 0, hasData := false }

/-- One iteration of the analysis loop on a transcript line, in source
order: select echo, select acknowledgement, dump command (finalizing
the previous dump), bare failure line, hex data row. -/
def analyzeStep (st : ScanStats) (line : List Char) : ScanStats :=
  let st1 := if matchMuxCmd line then { st with totalMux := st.totalMux + 1 } else st
  let st2 := if matchMuxSuccess line then { st1 with succMux := st1.succMux + 1 } else st1
  let st3 :=
    if matchHdCmd line then
      { st2 with
        succHd := if 0 < st2.totalHd ∧ st2.hasData then st2.succHd + 1 else st2.succHd,
        totalHd := st2.totalHd + 1,
        hasData := false }
    else st2
  let st4 := if jsTrim line = "fail".data
    then { st3 with failLines := st3.failLines + 1 } else st3
  if matchHexRow line then
    { st4 with hexFound := st4.hexFound + 1, hasData := true }
  else st4

/-- The counters of analyzeScanFailure for a transcript, including the
finalization of the last open dump command after the loop. -/
def analyzeScan (log : List (List Char)) : ScanStats :=
  let st := log.foldl analyzeStep initStats
  if 0 < st.totalHd ∧ st.hasData then { st with succHd := st.succHd + 1 } else st

/-- The three diagnosis branches analyzeScanFailure can print. -/
inductive Diagnosis where
  | noDeviceResponse
  | noHardwareDetected
  | partialOrIntermittent
deriving DecidableEq

/-- The classification chain of analyzeScanFailure: acknowledged
selects with zero successful dumps mean no device responded; zero
select echoes mean no hardware communication at all; anything else is
a mixed result. -/
def classifyScan (log : List (List Char)) : Diagnosis :=
  let st := analyzeScan log
  if 0 < st.succMux ∧ st.succHd = 0 then Diagnosis.noDeviceResponse
  else if st.totalMux = 0 then Diagnosis.noHardwareDetected
  else Diagnosis.partialOrIntermittent

/-! ### Definitions: prompt wait (waitForPrompt) -/

/-- The per-line prompt test of waitForPrompt: the trimmed line ends
with the prompt character, or the line contains the dollar marker. -/
def isPromptLine (l : List Char) : Bool :=
  decide ((jsTrim l).getLast? = some '>') || decide ('$' ∈ l)

/-- The prompt test as the specification words it: after trimming, the
line ends in the prompt character or contains the dollar marker. -/
def specPromptLine (l : List Char) : Bool :=
  decide ((jsTrim l).getLast? = some '>') || decide ('$' ∈ jsTrim l)

/-- The window scan of waitForPrompt: only the last ten transcript
lines are tested. -/
def hasPrompt (log : List (List Char)) : Bool :=
  (log.drop (log.length - 10)).any isPromptLine

/-- One poll of waitForPrompt resolves exactly when the window test
succeeds or the timeout has elapsed. -/
def waitForPromptDone (log : List (List Char)) (elapsed timeoutMs : Nat) : Bool :=
  hasPrompt log || decide (timeoutMs < elapsed)

/-! ### Lemmas about the terminator split -/

theorem splitTerm_ne_nil (s : List Char) : splitTerm s ≠ [] := by
  induction s using splitTerm.induct with
  | case1 => simp [splitTerm]
  | case2 => simp [splitTerm]
  | case3 c h => simp [splitTerm, h]
  | case4 d rest ih => simp [splitTerm, ih]
  | case5 c d rest h1 h2 ih => simp [splitTerm, h1, h2, ih]
  | case6 c d rest h1 h2 ih =>
    cases hT : splitTerm (d :: rest) with
    | nil => exact absurd hT ih
    | cons p ps => simp [splitTerm, h1, h2, hT, consHead]

theorem mem_splitTerm_no_newline (s : List Char) :
    ∀ p ∈ splitTerm s, '\n' ∉ p := by
  induction s using splitTerm.induct with
  | case1 => intro p hp; simp [splitTerm] at hp; simp [hp]
  | case2 => intro p hp; simp [splitTerm] at hp; simp [hp]
  | case3 c h =>
    intro p hp
    simp [splitTerm, h] at hp
    simp [hp]
    exact fun hh => h hh.symm
  | case4 d rest ih =>
    intro p hp
    simp [splitTerm] at hp
    rcases hp with rfl | hp
    · simp
    · exact ih p hp
  | case5 c d rest h1 h2 ih =>
    intro p hp
    simp [splitTerm, h1, h2] at hp
    rcases hp with rfl | hp
    · simp
    · exact ih p hp
  | case6 c d rest h1 h2 ih =>
    intro p hp
    cases hT : splitTerm (d :: rest) with
    | nil => exact absurd hT (splitTerm_ne_nil _)
    | cons q qs =>
      simp [splitTerm, h1, h2, hT, consHead] at hp
      rcases hp with rfl | hp
      · intro hm
        rcases List.mem_cons.mp hm with rfl | hm2
        · exact h1 rfl
        · exact ih q (by simp [hT]) hm2
      · exact ih p (by simp [hT, hp])

theorem splitTerm_of_no_newline {s : List Char} (h : '\n' ∉ s) :
    splitTerm s = [s] := by
  induction s using splitTerm.induct with
  | case1 => simp [splitTerm]
  | case2 => simp at h
  | case3 c hc => simp [splitTerm, hc]
  | case4 d rest ih => simp at h
  | case5 c d rest h1 h2 ih =>
    rcases h2 with ⟨rfl, rfl⟩
    simp at h
  | case6 c d rest h1 h2 ih =>
    have hdr : '\n' ∉ d :: rest := by
      intro hm; exact h (List.mem_cons_of_mem _ hm)
    simp [splitTerm, h1, h2, ih hdr, consHead]

theorem splitTerm_eq_single (s : List Char) :
    ∀ p, splitTerm s = [p] → p = s := by
  induction s using splitTerm.induct with
  | case1 => intro p h; simp [splitTerm] at h; simp [h]
  | case2 => intro p h; simp [splitTerm] at h
  | case3 c hc => intro p h; simp [splitTerm, hc] at h; simp [h]
  | case4 d rest ih =>
    intro p h
    simp [splitTerm] at h
    exact absurd h.2 (splitTerm_ne_nil _)
  | case5 c d rest h1 h2 ih =>
    intro p h
    simp [splitTerm, h1, h2] at h
    exact absurd h.2 (splitTerm_ne_nil _)
  | case6 c d rest h1 h2 ih =>
    intro p h
    cases hT : splitTerm (d :: rest) with
    | nil => exact absurd hT (splitTerm_ne_nil _)
    | cons q qs =>
      rw [splitTerm.eq_3, if_neg h1, if_neg h2, hT] at h
      cases qs with
      | nil =>
        simp [consHead] at h
        have := ih q (by simp [hT])
        simp [← h, this]
      | cons r rs => simp [consHead] at h

theorem splitTerm_append (s u : List Char) :
    splitTerm (s ++ u)
      = (splitTerm s).dropLast ++ splitTerm ((splitTerm s).getLastD [] ++ u) := by
  induction s using splitTerm.induct with
  | case1 => simp [splitTerm]
  | case2 =>
    cases u with
    | nil => simp [splitTerm]
    | cons e u2 => simp [splitTerm]
  | case3 c hc => simp [splitTerm, hc]
  | case4 d rest ih =>
    cases hT : splitTerm (d :: rest) with
    | nil => exact absurd hT (splitTerm_ne_nil _)
    | cons q qs =>
      have lhs : splitTerm (('\n' :: d :: rest) ++ u)
          = [] :: splitTerm ((d :: rest) ++ u) := by
        simp [splitTerm]
      rw [lhs, ih, hT]
      simp [splitTerm, hT, List.getLastD_cons]
  | case5 c d rest h1 h2 ih =>
    rcases h2 with ⟨rfl, rfl⟩
    cases hT : splitTerm rest with
    | nil => exact absurd hT (splitTerm_ne_nil _)
    | cons q qs =>
      have lhs : splitTerm (('\x0d' :: '\n' :: rest) ++ u)
          = [] :: splitTerm (rest ++ u) := by
        rw [List.cons_append, List.cons_append, splitTerm.eq_3, if_neg h1,
          if_pos ⟨rfl, rfl⟩]
      have rhs : splitTerm ('\x0d' :: '\n' :: rest) = [] :: splitTerm rest := by
        rw [splitTerm.eq_3, if_neg h1, if_pos ⟨rfl, rfl⟩]
      rw [lhs, ih, hT, rhs, hT]
      simp [List.getLastD_cons]
  | case6 c d rest h1 h2 ih =>
    cases hT : splitTerm (d :: rest) with
    | nil => exact absurd hT (splitTerm_ne_nil _)
    | cons q qs =>
      have lhs : splitTerm ((c :: d :: rest) ++ u)
          = consHead c (splitTerm ((d :: rest) ++ u)) := by
        rw [List.cons_append, List.cons_append, splitTerm.eq_3, if_neg h1, if_neg h2]
      have rhs : splitTerm (c :: d :: rest) = consHead c (q :: qs) := by
        rw [splitTerm.eq_3, if_neg h1, if_neg h2, hT]
      cases qs with
      | nil =>
        have hq : q = d :: rest := splitTerm_eq_single _ q hT
        have key : splitTerm ((c :: q) ++ u) = consHead c (splitTerm (q ++ u)) := by
          rw [hq, List.cons_append, List.cons_append, splitTerm.eq_3, if_neg h1,
            if_neg h2]
        rw [lhs, ih, hT, rhs]
        show consHead c (splitTerm (q ++ u)) = splitTerm ((c :: q) ++ u)
        exact key.symm
      | cons r rs =>
        rw [lhs, ih, hT, rhs]
        simp [consHead, List.getLastD_cons]

/-! ### Lemmas about the pipeline -/

theorem getLastD_mem {α : Type} (l : List α) (d : α) (h : l ≠ []) :
    l.getLastD d ∈ l := by
  induction l generalizing d with
  | nil => exact absurd rfl h
  | cons a t ih =>
    rw [List.getLastD_cons]
    cases t with
    | nil => simp [List.getLastD]
    | cons b t2 => exact List.mem_cons_of_mem _ (ih a (by simp))

theorem getLastD_append {α : Type} (A Q : List α) (d : α) (h : Q ≠ []) :
    (A ++ Q).getLastD d = Q.getLastD d := by
  induction A generalizing d with
  | nil => rfl
  | cons a A2 ih =>
    rw [List.cons_append, List.getLastD_cons, ih]
    cases Q with
    | nil => exact absurd rfl h
    | cons q Q2 => rw [List.getLastD_cons, List.getLastD_cons]

theorem emitOf_dropLast_append (P Q : List (List Char)) (h : Q ≠ []) :
    emitOf (P.dropLast ++ Q) = emitOf P ++ emitOf Q := by
  unfold emitOf
  rw [List.dropLast_append_of_ne_nil _ h, List.map_append, List.filter_append]

theorem readLoop_eq_batch (chunks : List (List Char)) :
    ∀ buf : List Char, '\n' ∉ buf →
      readLoop buf chunks
        = (emitOf (splitTerm (buf ++ chunks.flatten)),
           (splitTerm (buf ++ chunks.flatten)).getLastD []) := by
  induction chunks with
  | nil =>
    intro buf h
    rw [readLoop]
    simp [splitTerm_of_no_newline h, emitOf, List.getLastD]
  | cons ch rest ih =>
    intro buf h
    have hb1 : '\n' ∉ (splitTerm (buf ++ ch)).getLastD [] :=
      mem_splitTerm_no_newline _ _ (getLastD_mem _ _ (splitTerm_ne_nil _))
    have hQ : splitTerm ((splitTerm (buf ++ ch)).getLastD [] ++ rest.flatten) ≠ [] :=
      splitTerm_ne_nil _
    have hflat : buf ++ (ch :: rest).flatten = (buf ++ ch) ++ rest.flatten := by
      rw [List.flatten_cons, ← List.append_assoc]
    rw [readLoop, hflat, splitTerm_append (buf ++ ch) rest.flatten]
    rw [emitOf_dropLast_append _ _ hQ, getLastD_append _ _ _ hQ]
    simp only [stepEmit, ih _ hb1]

theorem pipelineResidual_no_newline (chunks : List (List Char)) :
    '\n' ∉ pipelineResidual chunks := by
  unfold pipelineResidual
  rw [readLoop_eq_batch chunks [] (by simp)]
  exact mem_splitTerm_no_newline _ _ (getLastD_mem _ _ (splitTerm_ne_nil _))

theorem flatten_filter_nonempty (L : List (List Char)) :
    (L.filter (fun l => !l.isEmpty)).flatten = L.flatten := by
  induction L with
  | nil => rfl
  | cons a t ih =>
    by_cases ha : a.isEmpty
    · have ha2 : a = [] := by
        cases a with
        | nil => rfl
        | cons x xs => simp [List.isEmpty] at ha
      simp [List.filter_cons, ha, ha2, ih]
    · simp [List.filter_cons, ha, ih]

theorem mem_of_mem_jsTrim {x : Char} {l : List Char} (h : x ∈ jsTrim l) : x ∈ l := by
  unfold jsTrim at h
  rw [List.mem_reverse] at h
  have h2 := (List.dropWhile_sublist isJsWS).subset h
  rw [List.mem_reverse] at h2
  exact (List.dropWhile_sublist isJsWS).subset h2

theorem mem_dropWhile_not {p : Char → Bool} {x : Char} (hx : p x = false) :
    ∀ {l : List Char}, x ∈ l → x ∈ l.dropWhile p := by
  intro l
  induction l with
  | nil => intro h; exact absurd h (List.not_mem_nil x)
  | cons c t ih =>
    intro h
    by_cases hc : p c
    · rw [List.dropWhile_cons_of_pos hc]
      rcases List.mem_cons.mp h with rfl | h2
      · rw [hx] at hc; exact absurd hc (by simp)
      · exact ih h2
    · rw [List.dropWhile_cons_of_neg hc]
      exact h

theorem mem_jsTrim_iff {x : Char} (hx : isJsWS x = false) (l : List Char) :
    x ∈ jsTrim l ↔ x ∈ l := by
  constructor
  · exact mem_of_mem_jsTrim
  · intro h
    unfold jsTrim
    rw [List.mem_reverse]
    apply mem_dropWhile_not hx
    rw [List.mem_reverse]
    exact mem_dropWhile_not hx h

theorem isPromptLine_eq_spec : isPromptLine = specPromptLine := by
  funext l
  unfold isPromptLine specPromptLine
  have h : ('$' ∈ jsTrim l) ↔ ('$' ∈ l) := mem_jsTrim_iff (by decide) l
  by_cases hd : '$' ∈ l
  · simp [hd, h.mpr hd]
  · have hnd : '$' ∉ jsTrim l := fun hc => hd (h.mp hc)
    simp [hd, hnd]

/-! ### Claim C1 -/

/-- C1, as stated, is false: because readLoop trims each completed
line and drops lines that trim to nothing, the concatenation of the
emitted lines plus the residual can lose whitespace that no consumed
terminator accounts for. Concretely, feeding the single chunk of an
a, a space and a line feed emits just the letter while the input minus
its terminator still carries the space. -/
theorem pipeline_exact_conservation_fails :
    ¬ ((pipelineEmitted [("a \n").data]).flatten ++ pipelineResidual [("a \n").data]
          = stripTerminators (([("a \n").data] : List (List Char)).flatten)
        ∧ ∀ l ∈ pipelineEmitted [("a \n").data], '\n' ∉ l) := by
  decide

/-- C1 (amended): for every chunk stream, the concatenation of the
emitted lines plus the residual equals the concatenation of the
inputs with the consumed terminators removed and each completed piece
trimmed of surrounding whitespace; and no emitted line contains a
line feed (hence no embedded terminator). -/
theorem pipeline_conservation_trimmed (chunks : List (List Char)) :
    (pipelineEmitted chunks).flatten ++ pipelineResidual chunks
        = stripTermsAndTrim chunks.flatten
      ∧ ∀ l ∈ pipelineEmitted chunks, '\n' ∉ l := by
  have hb := readLoop_eq_batch chunks [] (by simp)
  constructor
  · unfold pipelineEmitted pipelineResidual
    rw [hb]
    unfold stripTermsAndTrim emitOf
    rw [flatten_filter_nonempty]
    simp
  · intro l hl
    unfold pipelineEmitted at hl
    rw [hb] at hl
    unfold emitOf at hl
    have hl2 := List.mem_of_mem_filter hl
    obtain ⟨p, hp, rfl⟩ := List.mem_map.mp hl2
    have hpS : p ∈ splitTerm ([] ++ chunks.flatten) :=
      (List.dropLast_sublist _).subset hp
    intro hn
    exact mem_splitTerm_no_newline _ _ hpS (mem_of_mem_jsTrim hn)

/-- C1 witness: the amended conservation statement evaluated on a
concrete stream, including one emitted line instantiating the
universally quantified part. -/
theorem pipeline_conservation_trimmed_witness :
    ((pipelineEmitted [("ab\ncd").data]).flatten ++ pipelineResidual [("ab\ncd").data]
        = stripTermsAndTrim (([("ab\ncd").data] : List (List Char)).flatten))
      ∧ ("ab").data ∈ pipelineEmitted [("ab\ncd").data]
      ∧ '\n' ∉ ("ab").data :=
  ⟨(pipeline_conservation_trimmed [("ab\ncd").data]).1, by decide,
    (pipeline_conservation_trimmed [("ab\ncd").data]).2 ("ab").data (by decide)⟩

/-! ### Claim C2 -/

/-- C2: from any reachable state of the residual line buffer,
processing a chunk that contains no line terminator (no line feed)
emits no lines and extends the residual by exactly that chunk. -/
theorem chunk_without_terminator_grows_buffer
    (history : List (List Char)) (chunk : List Char) (h : '\n' ∉ chunk) :
    stepEmit (pipelineResidual history) chunk
      = ([], pipelineResidual history ++ chunk) := by
  have hbuf : '\n' ∉ pipelineResidual history := pipelineResidual_no_newline history
  have hall : '\n' ∉ pipelineResidual history ++ chunk := by
    rw [List.mem_append]
    rintro (hc | hc)
    · exact hbuf hc
    · exact h hc
  unfold stepEmit
  rw [splitTerm_of_no_newline hall]
  simp [emitOf, List.getLastD]

/-- C2 witness: a concrete history leaving residual c, and a concrete
terminator-free chunk. -/
theorem chunk_without_terminator_grows_buffer_witness :
    '\n' ∉ ("de").data
      ∧ stepEmit (pipelineResidual [("ab\nc").data]) ("de").data
          = ([], pipelineResidual [("ab\nc").data] ++ ("de").data) :=
  ⟨by decide, chunk_without_terminator_grows_buffer _ _ (by decide)⟩

/-! ### Claim C3 -/

/-- C3, as stated, is false: the whole teardown sequence of
disconnectPort sits in a single try block, so when reader.cancel()
rejects, control jumps to the catch and neither the writer close nor
the port close is ever performed. -/
theorem disconnect_cancel_error_counterexample :
    ¬ (TeardownAction.closeWriter ∈
          (disconnectPort ⟨true, true, true, true, true, true, true, false⟩
            ⟨true, false, false⟩).1
        ∧ TeardownAction.closePort ∈
            (disconnectPort ⟨true, true, true, true, true, true, true, false⟩
              ⟨true, false, false⟩).1) := by
  decide

/-- C3 (amended): when cancelling the in-flight read raises, the
error is caught and logged and the writer close and port close are
skipped; the operation still clears the port reference and the busy
flag instead of propagating the error. -/
theorem disconnect_cancel_error_skips_rest (s : SerialState) (f : DisconnectFaults)
    (hp : s.port = true) (hr : s.reader = true) (hc : f.cancelFails = true) :
    TeardownAction.closeWriter ∉ (disconnectPort s f).1
      ∧ TeardownAction.closePort ∉ (disconnectPort s f).1
      ∧ TeardownAction.logError ∈ (disconnectPort s f).1
      ∧ (disconnectPort s f).2.port = false
      ∧ (disconnectPort s f).2.isConnecting = false := by
  simp [disconnectPort, tdStep, cancelReaderStep, hp, hr, hc]

/-- C3 witness: the amended behavior at a fully populated state with
a rejecting cancel. -/
theorem disconnect_cancel_error_skips_rest_witness :
    TeardownAction.closePort ∉
        (disconnectPort ⟨true, true, true, true, true, true, true, false⟩
          ⟨true, false, false⟩).1
      ∧ (disconnectPort ⟨true, true, true, true, true, true, true, false⟩
          ⟨true, false, false⟩).2.port = false :=
  ⟨(disconnect_cancel_error_skips_rest _ _ rfl rfl rfl).2.1,
    (disconnect_cancel_error_skips_rest _ _ rfl rfl rfl).2.2.2.1⟩

/-! ### Claim C4 -/

/-- C4: a connect attempted while the busy flag is set returns the
busy indication immediately, performs no transport action and leaves
the state untouched; and whenever a connect actually starts (busy
flag initially clear), the busy flag is clear again on every exit
path, success or failure. -/
theorem connect_busy_and_clears_flag (s : SerialState) (e : ConnectEnv) :
    (s.isConnecting = true → connectToPort s e = (ConnectResult.busy, [], s))
      ∧ (s.isConnecting = false → (connectToPort s e).2.2.isConnecting = false) := by
  obtain ⟨np, rp, par, opf, hf, df⟩ := e
  constructor
  · intro h
    simp [connectToPort, h]
  · intro h
    cases np <;> cases rp <;> cases par <;> cases opf <;> cases hf <;>
      simp [connectToPort, openSelectedPort, h]

/-- C4 witness: the busy path at a busy state and the flag-clearing
conclusion at an idle state, with a concrete environment. -/
theorem connect_busy_and_clears_flag_witness :
    connectToPort ⟨false, false, false, false, false, false, false, true⟩
        ⟨false, false, false, false, false, ⟨false, false, false⟩⟩
      = (ConnectResult.busy, [],
          ⟨false, false, false, false, false, false, false, true⟩)
      ∧ (connectToPort ⟨false, false, false, false, false, false, false, false⟩
          ⟨false, false, false, false, false, ⟨false, false, false⟩⟩).2.2.isConnecting
        = false :=
  ⟨(connect_busy_and_clears_flag _ _).1 rfl,
    (connect_busy_and_clears_flag _ _).2 rfl⟩

/-! ### Claim C5 -/

/-- C5: the dump step of the scan sweep never issues more than one
retry; it issues exactly one retry when the first dump attempt adds
zero hex-row lines to the transcript, and no retry when the first
attempt adds at least one hex-row line. -/
theorem dump_retry_exactly_once (log resp1 resp2 : List (List Char)) :
    (dumpWithRetry log resp1 resp2).2 ≤ 1
      ∧ (countHexRows resp1 = 0 → (dumpWithRetry log resp1 resp2).2 = 1)
      ∧ (0 < countHexRows resp1 → (dumpWithRetry log resp1 resp2).2 = 0) := by
  have key : countHexRows ((log ++ [hdEchoLine]) ++ resp1)
      = countHexRows log + countHexRows resp1 := by
    have hecho : (List.filter matchHexRow [hdEchoLine]).length = 0 := by decide
    unfold countHexRows
    rw [List.filter_append, List.filter_append, List.length_append,
      List.length_append, hecho]
    omega
  simp only [dumpWithRetry, key]
  by_cases h : countHexRows log + countHexRows resp1 = countHexRows log
  · rw [if_pos h]
    exact ⟨le_refl 1, fun _ => rfl, fun hpos => absurd h (by omega)⟩
  · rw [if_neg h]
    exact ⟨Nat.zero_le 1, fun h0 => absurd h (by omega), fun _ => rfl⟩

/-- C5 witness: a first dump attempt with no hex rows triggers the
single retry; one with a hex row triggers none. -/
theorem dump_retry_exactly_once_witness :
    countHexRows [] = 0
      ∧ (dumpWithRetry [] [] [("00: AA BB CC DD EE FF 00 11 ").data]).2 = 1
      ∧ (dumpWithRetry [] [("00: AA BB CC DD EE FF 00 11 ").data] []).2 = 0 :=
  ⟨by decide,
    (dump_retry_exactly_once [] [] [("00: AA BB CC DD EE FF 00 11 ").data]).2.1
      (by decide),
    (dump_retry_exactly_once [] [("00: AA BB CC DD EE FF 00 11 ").data] []).2.2
      (by decide)⟩

/-! ### Claim C6 -/

/-- C6, as stated, is false: a transcript with zero recognized
select-acknowledgements but a select-command echo present is
classified as the mixed result, not as no hardware detected, because
the no-hardware branch of analyzeScanFailure tests the count of
issued selects, not of acknowledged ones. -/
theorem classify_zero_acks_counterexample :
    ¬ ((analyzeScan [("> sm a 3").data]).succMux = 0
        → classifyScan [("> sm a 3").data] = Diagnosis.noHardwareDetected) := by
  decide

/-- C6 (amended): a transcript with zero recognized
select-acknowledgements and additionally zero select-command echoes
is classified as no hardware detected, regardless of any hex-dump
lines present. -/
theorem classify_no_hardware (log : List (List Char))
    (h1 : (analyzeScan log).succMux = 0) (h2 : (analyzeScan log).totalMux = 0) :
    classifyScan log = Diagnosis.noHardwareDetected := by
  simp [classifyScan, h1, h2]

/-- C6 witness: a transcript consisting only of a hex data row (so
with dump lines present) classifies as no hardware detected. -/
theorem classify_no_hardware_witness :
    (analyzeScan [("00: AA BB CC DD EE FF 00 11 ").data]).succMux = 0
      ∧ (analyzeScan [("00: AA BB CC DD EE FF 00 11 ").data]).totalMux = 0
      ∧ classifyScan [("00: AA BB CC DD EE FF 00 11 ").data]
          = Diagnosis.noHardwareDetected :=
  ⟨by decide, by decide, classify_no_hardware _ (by decide) (by decide)⟩

/-! ### Claim C7 -/

/-- C7: a transcript with at least one recognized
select-acknowledgement and zero dump commands that produced a hex-row
line is classified as no device response. -/
theorem classify_no_device_response (log : List (List Char))
    (h1 : 0 < (analyzeScan log).succMux) (h2 : (analyzeScan log).succHd = 0) :
    classifyScan log = Diagnosis.noDeviceResponse := by
  simp [classifyScan, h1, h2]

/-- C7 witness: a transcript with one acknowledgement and no dump
output. -/
theorem classify_no_device_response_witness :
    0 < (analyzeScan [("Selected MUX A, Channel 1").data]).succMux
      ∧ (analyzeScan [("Selected MUX A, Channel 1").data]).succHd = 0
      ∧ classifyScan [("Selected MUX A, Channel 1").data]
          = Diagnosis.noDeviceResponse :=
  ⟨by decide, by decide, classify_no_device_response _ (by decide) (by decide)⟩

/-! ### Claim C8 -/

/-- C8, as stated, is false: the third chunk of the example stream
ends in a terminator, so its final piece gh is emitted as a complete
line and the residual is empty, rather than gh being held back. -/
theorem pipeline_example_stream_counterexample :
    ¬ (pipelineEmitted [("ab").data, ("cd\n").data, ("ef\ngh\n").data]
          = [("abcd").data, ("ef").data]
        ∧ pipelineResidual [("ab").data, ("cd\n").data, ("ef\ngh\n").data]
          = ("gh").data) := by
  decide

/-- C8 (amended): on the stated chunk stream the pipeline emits
abcd, ef and gh in order and holds an empty residual. -/
theorem pipeline_example_stream :
    pipelineEmitted [("ab").data, ("cd\n").data, ("ef\ngh\n").data]
        = [("abcd").data, ("ef").data, ("gh").data]
      ∧ pipelineResidual [("ab").data, ("cd\n").data, ("ef\ngh\n").data] = [] := by
  decide

/-! ### Claim C9 -/

/-- C9: the prompt-wait completion test inspects exactly the last ten
transcript lines; it resolves exactly when some line in that window,
after trimming, ends in the prompt character or contains the dollar
marker, or the timeout has elapsed; lines older than the window
cannot trigger it. -/
theorem waitForPrompt_window (old recent : List (List Char))
    (elapsed timeoutMs : Nat) (h : recent.length = 10) :
    waitForPromptDone (old ++ recent) elapsed timeoutMs
      = (recent.any specPromptLine || decide (timeoutMs < elapsed)) := by
  unfold waitForPromptDone hasPrompt
  have hlen : (old ++ recent).length - 10 = old.length := by
    simp [List.length_append, h]
  rw [hlen, List.drop_left, isPromptLine_eq_spec]

/-- C9 witness: a prompt line older than the ten-line window does not
trigger completion before the timeout. -/
theorem waitForPrompt_window_witness :
    (List.replicate 10 ("data").data).length = 10
      ∧ waitForPromptDone ([("ready >").data] ++ List.replicate 10 ("data").data)
          0 100 = false :=
  ⟨by decide,
    (waitForPrompt_window [("ready >").data] (List.replicate 10 ("data").data)
      0 100 (by decide)).trans (by decide)⟩

/-! ### Claim C10 -/

/-- C10: sendCommand returns false and performs no write whenever the
busy flag is set, even when a port and writer are still tracked. -/
theorem sendCommand_busy_refuses (s : SerialState) (writeFails : Bool)
    (h : s.isConnecting = true) :
    sendCommand s writeFails = (false, false) := by
  simp [sendCommand, h]

/-- C10 witness: the refusal with port and writer both present. -/
theorem sendCommand_busy_refuses_witness :
    (⟨true, true, true, true, true, true, true, true⟩ : SerialState).isConnecting
        = true
      ∧ sendCommand ⟨true, true, true, true, true, true, true, true⟩ false
          = (false, false) :=
  ⟨rfl, sendCommand_busy_refuses _ _ rfl⟩

end Eeprom
